import Mathlib

/-!
Shallow embedding of the library circulation service ("Loan Ledger") of the
perpustakaan-desa-cerdas repository.

The data model follows the drizzle schema (`db/schema.ts`) and the zod
schemas (`schema.ts`); the operations are translated from the handlers in
`handlers/borrow_requests.ts`, `handlers/users.ts` and `handlers/auth.ts`.

Modelling conventions:
  * Timestamps are abstract `Nat` values at day granularity, supplied to each
    operation as a `now` parameter (the code calls `new Date()`);
    `dueDate.setDate(dueDate.getDate() + 14)` becomes `now + 14`.
  * Integer columns holding stock counters are `Int`, because the SQL updates
    `available_stock - 1` / `available_stock + 1` are unguarded arithmetic.
  * Nullable columns are `Option`; an input field that may be absent
    (`.optional()`) or null (`.nullable()`) is `Option (Option _)` with the
    outer layer meaning "supplied".
  * A thrown `Error(msg)` is `Except.error msg`; the state is threaded
    explicitly, so an error leaves the store untouched exactly as the code
    throws before performing its writes.
  * A SQL `update ... where` mutates every matching row; `select ... where`
    returns matching rows in store order and the handlers use row `[0]`,
    which is `List.find?`.
-/

deriving instance DecidableEq for Except

inductive UserRole where
  | admin
  | member
deriving DecidableEq

inductive BookStatus where
  | tersedia
  | dipinjam
  | rusak
  | hilang
deriving DecidableEq

inductive BorrowStatus where
  | menunggu
  | disetujui
  | ditolak
  | selesai
deriving DecidableEq

/-- Row of the `users` table. -/
structure User where
  id : Nat
  username : String
  password : String
  full_name : String
  email : Option String
  phone : Option String
  address : Option String
  role : UserRole
  member_number : Option String
  created_at : Nat
  updated_at : Nat
deriving DecidableEq

/-- Row of the `books` table. -/
structure Book where
  id : Nat
  title : String
  category : String
  author : String
  publisher : String
  publication_year : Int
  page_count : Int
  isbn : Option String
  total_stock : Int
  available_stock : Int
  shelf_location : String
  status : BookStatus
  description : Option String
  created_at : Nat
  updated_at : Nat
deriving DecidableEq

/-- Row of the `borrow_requests` table. -/
structure BorrowRequest where
  id : Nat
  member_id : Nat
  book_id : Nat
  request_date : Nat
  approved_date : Option Nat
  due_date : Option Nat
  return_date : Option Nat
  status : BorrowStatus
  notes : Option String
  approved_by : Option Nat
  created_at : Nat
  updated_at : Nat
deriving DecidableEq

/-- The backing store: the three tables plus the serial counter that assigns
`borrow_requests.id` on insert. -/
structure DB where
  users : List User
  books : List Book
  requests : List BorrowRequest
  nextRequestId : Nat
deriving DecidableEq

/-- Input of `createBorrowRequest` (`createBorrowRequestInputSchema`). -/
structure CreateBorrowRequestInput where
  member_id : Nat
  book_id : Nat
  notes : Option String
deriving DecidableEq

/-- Input of `updateBorrowRequestStatus` (`updateBorrowRequestInputSchema`);
`notes` and `approved_by` are optional-and-nullable. -/
structure UpdateBorrowRequestInput where
  id : Nat
  status : BorrowStatus
  notes : Option (Option String)
  approved_by : Option (Option Nat)
deriving DecidableEq

/-- Input of `returnBook` (`returnBookInputSchema`). -/
structure ReturnBookInput where
  request_id : Nat
  notes : Option String
deriving DecidableEq

/-- Translation of `createBorrowRequest` from `handlers/borrow_requests.ts`:
check book exists, book available, member exists with role member, no active
(menunggu/disetujui) request for the pair, then insert a fresh menunggu row. -/
def createBorrowRequest (db : DB) (now : Nat) (input : CreateBorrowRequestInput) :
    Except String (DB × BorrowRequest) :=
  match db.books.find? (fun b => b.id == input.book_id) with
  | none => .error "Book not found"
  | some book =>
    if book.available_stock ≤ 0 ∨ book.status ≠ BookStatus.tersedia then
      .error "Book is not available for borrowing"
    else
      match db.users.find? (fun u => u.id == input.member_id && u.role == UserRole.member) with
      | none => .error "Member not found"
      | some _ =>
        if (db.requests.filter (fun r =>
              r.member_id == input.member_id && r.book_id == input.book_id &&
              (r.status == BorrowStatus.menunggu || r.status == BorrowStatus.disetujui))).length
            > 0 then
          .error "You already have an active request for this book"
        else
          let newReq : BorrowRequest :=
            { id := db.nextRequestId
              member_id := input.member_id
              book_id := input.book_id
              request_date := now
              approved_date := none
              due_date := none
              return_date := none
              status := BorrowStatus.menunggu
              notes := input.notes
              approved_by := none
              created_at := now
              updated_at := now }
          .ok ({ db with requests := db.requests ++ [newReq],
                         nextRequestId := db.nextRequestId + 1 }, newReq)

/-- The per-row update performed by `updateBorrowRequestStatus`: status and
`updated_at` always; `notes` / `approved_by` when supplied; on approval also
`approved_date = now` and `due_date = now + 14`. -/
def applyStatusUpdate (now : Nat) (input : UpdateBorrowRequestInput)
    (r : BorrowRequest) : BorrowRequest :=
  let r1 := { r with status := input.status, updated_at := now }
  let r2 := match input.notes with
    | some n => { r1 with notes := n }
    | none => r1
  let r3 := match input.approved_by with
    | some a => { r2 with approved_by := a }
    | none => r2
  if input.status = BorrowStatus.disetujui then
    { r3 with approved_date := some now, due_date := some (now + 14) }
  else
    r3

/-- Translation of `updateBorrowRequestStatus` from
`handlers/borrow_requests.ts`: the request must exist; on target status
disetujui the referenced book's `available_stock` is decremented; the request
row is updated and returned. No check is made on the current status. -/
def updateBorrowRequestStatus (db : DB) (now : Nat) (input : UpdateBorrowRequestInput) :
    Except String (DB × BorrowRequest) :=
  match db.requests.find? (fun r => r.id == input.id) with
  | none => .error "Borrow request not found"
  | some currentRequest =>
    let books' :=
      if input.status = BorrowStatus.disetujui then
        db.books.map (fun b =>
          if b.id == currentRequest.book_id then
            { b with available_stock := b.available_stock - 1, updated_at := now }
          else b)
      else db.books
    let requests' := db.requests.map (fun r =>
      if r.id == input.id then applyStatusUpdate now input r else r)
    .ok ({ db with books := books', requests := requests' },
         applyStatusUpdate now input currentRequest)

/-- The per-row update performed by `returnBook`: status selesai,
`return_date = now`; `notes` only when the input notes are truthy
(`if (input.notes)`), i.e. non-null and non-empty. -/
def applyReturnUpdate (now : Nat) (input : ReturnBookInput)
    (r : BorrowRequest) : BorrowRequest :=
  let r1 := { r with status := BorrowStatus.selesai, return_date := some now,
                     updated_at := now }
  match input.notes with
  | some s => if s ≠ "" then { r1 with notes := some s } else r1
  | none => r1

/-- Translation of `returnBook` from `handlers/borrow_requests.ts`: the
request must exist, must not already have `return_date` set, must be
disetujui; then the row is completed and the book's `available_stock`
incremented. -/
def returnBook (db : DB) (now : Nat) (input : ReturnBookInput) :
    Except String (DB × BorrowRequest) :=
  match db.requests.find? (fun r => r.id == input.request_id) with
  | none => .error "Borrow request not found"
  | some currentRequest =>
    if currentRequest.return_date.isSome then
      .error "Book has already been returned"
    else if currentRequest.status ≠ BorrowStatus.disetujui then
      .error "Only approved requests can be returned"
    else
      let requests' := db.requests.map (fun r =>
        if r.id == input.request_id then applyReturnUpdate now input r else r)
      let books' := db.books.map (fun b =>
        if b.id == currentRequest.book_id then
          { b with available_stock := b.available_stock + 1, updated_at := now }
        else b)
      .ok ({ db with requests := requests', books := books' },
           applyReturnUpdate now input currentRequest)

/-- Translation of `cancelBorrowRequest` from `handlers/borrow_requests.ts`:
the select filters on id AND member_id together; only menunggu requests can be
cancelled; the update sets ditolak and overwrites notes. -/
def cancelBorrowRequest (db : DB) (now : Nat) (requestId memberId : Nat) :
    Except String (DB × Bool) :=
  match db.requests.find? (fun r => r.id == requestId && r.member_id == memberId) with
  | none => .error "Borrow request not found or you do not have permission to cancel it"
  | some currentRequest =>
    if currentRequest.status ≠ BorrowStatus.menunggu then
      .error "Only pending requests can be cancelled"
    else
      .ok ({ db with requests := db.requests.map (fun r =>
               if r.id == requestId then
                 { r with status := BorrowStatus.ditolak, updated_at := now,
                          notes := some "Cancelled by member" }
               else r) }, true)

/-- Translation of `deleteUser` from `handlers/users.ts`: counts the
borrow_requests rows whose `member_id` is the user id — with no filter on
status — and refuses deletion when the count is positive; otherwise deletes
and reports whether a row was removed. -/
def deleteUser (db : DB) (id : Nat) : Except String (DB × Bool) :=
  if (db.requests.filter (fun r => r.member_id == id)).length > 0 then
    .error "Cannot delete user with active borrow requests"
  else
    let remaining := db.users.filter (fun u => !(u.id == id))
    .ok ({ db with users := remaining }, remaining.length < db.users.length)

/-- User record with the `password` column omitted, as produced by the
`const \x7b password: _, ...userWithoutPassword \x7d = user` destructuring in
`handlers/auth.ts`. -/
structure UserPublic where
  id : Nat
  username : String
  full_name : String
  email : Option String
  phone : Option String
  address : Option String
  role : UserRole
  member_number : Option String
  created_at : Nat
  updated_at : Nat
deriving DecidableEq

/-- The destructuring that drops the password field. -/
def stripPassword (u : User) : UserPublic :=
  { id := u.id
    username := u.username
    full_name := u.full_name
    email := u.email
    phone := u.phone
    address := u.address
    role := u.role
    member_number := u.member_number
    created_at := u.created_at
    updated_at := u.updated_at }

/-- Shape of `authResponseSchema`. -/
structure AuthResponse where
  success : Bool
  user : Option UserPublic
  message : String
deriving DecidableEq

/-- Translation of `login` from `handlers/auth.ts`, parameterised by the hash
function (the code uses sha256 hex); verification compares the hash of the
supplied password with the stored hash. -/
def login (hash : String → String) (db : DB) (username password : String) :
    AuthResponse :=
  match db.users.find? (fun u => u.username == username) with
  | none => { success := false, user := none, message := "Username atau password salah" }
  | some user =>
    if hash password == user.password then
      { success := true, user := some (stripPassword user), message := "Login berhasil" }
    else
      { success := false, user := none, message := "Username atau password salah" }

/-- Translation of `validateSession` from `handlers/auth.ts`. -/
def validateSession (db : DB) (userId : Nat) : Option UserPublic :=
  (db.users.find? (fun u => u.id == userId)).map stripPassword

/-! ### Sample records used by concrete witnesses and counterexamples -/

/-- Book record with the given id, stock and status; other columns fixed. -/
def mkBook (id : Nat) (total avail : Int) (st : BookStatus) : Book :=
  { id := id, title := "T", category := "C", author := "A", publisher := "P"
    publication_year := 2020, page_count := 100, isbn := none
    total_stock := total, available_stock := avail
    shelf_location := "R1", status := st, description := none
    created_at := 0, updated_at := 0 }

/-- User record with the given id and role; other columns fixed. -/
def mkUser (id : Nat) (role : UserRole) (username pw : String) : User :=
  { id := id, username := username, password := pw, full_name := "N"
    email := none, phone := none, address := none, role := role
    member_number := none, created_at := 0, updated_at := 0 }

/-- Borrow-request record with the given keys, status and dates; notes and
approver empty. -/
def mkReq (id memberId bookId : Nat) (st : BorrowStatus)
    (ad dd rd : Option Nat) : BorrowRequest :=
  { id := id, member_id := memberId, book_id := bookId, request_date := 0
    approved_date := ad, due_date := dd, return_date := rd
    status := st, notes := none, approved_by := none
    created_at := 0, updated_at := 0 }

/-- Store for the deleteUser check: user 5 is referenced by one request that
is in the terminal selesai (Completed) status, return date set. -/
def c8db : DB :=
  { users := [mkUser 5 UserRole.member "budi" "h"]
    books := [mkBook 1 2 2 BookStatus.tersedia]
    requests := [mkReq 1 5 1 BorrowStatus.selesai (some 0) (some 14) (some 10)]
    nextRequestId := 2 }

/-- C8: `deleteUser` is documented (spec, and the code's own comment and
error message) to block only on ACTIVE loans (menunggu/disetujui), but its
query filters on `member_id` alone, so a user referenced only by a terminal
selesai request is also blocked: the code contradicts its own documentation. -/
theorem deleteUser_blocks_terminal_request :
    (∀ r ∈ c8db.requests, r.status = BorrowStatus.selesai ∧ r.return_date.isSome) ∧
    deleteUser c8db 5 = Except.error "Cannot delete user with active borrow requests" := by
  decide

/-- C6: a successful `createBorrowRequest` returns a menunggu request dated
now with all approval/return fields null, leaves users and books untouched,
and only appends the new row to the requests table. -/
theorem createBorrowRequest_pending_frame (db : DB) (now : Nat)
    (input : CreateBorrowRequestInput) (db' : DB) (r : BorrowRequest)
    (h : createBorrowRequest db now input = .ok (db', r)) :
    r.status = BorrowStatus.menunggu ∧ r.request_date = now ∧
    r.approved_date = none ∧ r.due_date = none ∧ r.return_date = none ∧
    r.approved_by = none ∧ r.member_id = input.member_id ∧
    r.book_id = input.book_id ∧
    db'.books = db.books ∧ db'.users = db.users ∧
    db'.requests = db.requests ++ [r] := by
  unfold createBorrowRequest at h
  split at h
  · exact absurd h (by simp)
  · split at h
    · exact absurd h (by simp)
    · split at h
      · exact absurd h (by simp)
      · split at h
        · exact absurd h (by simp)
        · simp only [Except.ok.injEq, Prod.mk.injEq] at h
          obtain ⟨hdb, hr⟩ := h
          subst hdb
          subst hr
          simp

/-- Store for the C6 witness: one available book, one member, no requests. -/
def c6db : DB :=
  { users := [mkUser 2 UserRole.member "siti" "h"]
    books := [mkBook 1 1 1 BookStatus.tersedia]
    requests := []
    nextRequestId := 1 }

/-- Input of the C6 witness. -/
def c6input : CreateBorrowRequestInput :=
  { member_id := 2, book_id := 1, notes := none }

/-- The request inserted by the C6 witness run. -/
def c6req : BorrowRequest := mkReq 1 2 1 BorrowStatus.menunggu none none none

/-- The store after the C6 witness run. -/
def c6db' : DB :=
  { c6db with requests := [c6req], nextRequestId := 2 }

/-- Witness for C6 at a concrete store. -/
theorem createBorrowRequest_pending_frame_witness :
    c6req.status = BorrowStatus.menunggu ∧ c6req.request_date = 0 ∧
    c6req.approved_date = none ∧ c6req.due_date = none ∧ c6req.return_date = none ∧
    c6req.approved_by = none ∧ c6req.member_id = c6input.member_id ∧
    c6req.book_id = c6input.book_id ∧
    c6db'.books = c6db.books ∧ c6db'.users = c6db.users ∧
    c6db'.requests = c6db.requests ++ [c6req] :=
  createBorrowRequest_pending_frame c6db 0 c6input c6db' c6req (by decide)

/-! ### Field lemmas for the row-update helpers -/

theorem applyStatusUpdate_id (now : Nat) (input : UpdateBorrowRequestInput)
    (r : BorrowRequest) : (applyStatusUpdate now input r).id = r.id := by
  unfold applyStatusUpdate
  split <;> split <;> split <;> rfl

theorem applyStatusUpdate_member_id (now : Nat) (input : UpdateBorrowRequestInput)
    (r : BorrowRequest) : (applyStatusUpdate now input r).member_id = r.member_id := by
  unfold applyStatusUpdate
  split <;> split <;> split <;> rfl

theorem applyStatusUpdate_book_id (now : Nat) (input : UpdateBorrowRequestInput)
    (r : BorrowRequest) : (applyStatusUpdate now input r).book_id = r.book_id := by
  unfold applyStatusUpdate
  split <;> split <;> split <;> rfl

theorem applyStatusUpdate_return_date (now : Nat) (input : UpdateBorrowRequestInput)
    (r : BorrowRequest) : (applyStatusUpdate now input r).return_date = r.return_date := by
  unfold applyStatusUpdate
  split <;> split <;> split <;> rfl

theorem applyStatusUpdate_status (now : Nat) (input : UpdateBorrowRequestInput)
    (r : BorrowRequest) : (applyStatusUpdate now input r).status = input.status := by
  unfold applyStatusUpdate
  split <;> split <;> split <;> rfl

theorem applyStatusUpdate_approved_date_of_approve (now : Nat)
    (input : UpdateBorrowRequestInput) (r : BorrowRequest)
    (h : input.status = BorrowStatus.disetujui) :
    (applyStatusUpdate now input r).approved_date = some now := by
  unfold applyStatusUpdate
  split <;> split <;> split <;> first | rfl | exact absurd h (by assumption)

theorem applyStatusUpdate_due_date_of_approve (now : Nat)
    (input : UpdateBorrowRequestInput) (r : BorrowRequest)
    (h : input.status = BorrowStatus.disetujui) :
    (applyStatusUpdate now input r).due_date = some (now + 14) := by
  unfold applyStatusUpdate
  split <;> split <;> split <;> first | rfl | exact absurd h (by assumption)

theorem applyStatusUpdate_approved_date_of_other (now : Nat)
    (input : UpdateBorrowRequestInput) (r : BorrowRequest)
    (h : input.status ≠ BorrowStatus.disetujui) :
    (applyStatusUpdate now input r).approved_date = r.approved_date := by
  unfold applyStatusUpdate
  split <;> split <;> split <;> first | rfl | exact absurd (by assumption) h

theorem applyStatusUpdate_due_date_of_other (now : Nat)
    (input : UpdateBorrowRequestInput) (r : BorrowRequest)
    (h : input.status ≠ BorrowStatus.disetujui) :
    (applyStatusUpdate now input r).due_date = r.due_date := by
  unfold applyStatusUpdate
  split <;> split <;> split <;> first | rfl | exact absurd (by assumption) h

theorem applyStatusUpdate_approved_by_supplied (now : Nat)
    (input : UpdateBorrowRequestInput) (r : BorrowRequest) (v : Option Nat)
    (h : input.approved_by = some v) :
    (applyStatusUpdate now input r).approved_by = v := by
  unfold applyStatusUpdate
  split <;> split <;> split <;> simp_all

theorem applyReturnUpdate_id (now : Nat) (input : ReturnBookInput)
    (r : BorrowRequest) : (applyReturnUpdate now input r).id = r.id := by
  unfold applyReturnUpdate
  split <;> first | rfl | (split <;> rfl)

theorem applyReturnUpdate_book_id (now : Nat) (input : ReturnBookInput)
    (r : BorrowRequest) : (applyReturnUpdate now input r).book_id = r.book_id := by
  unfold applyReturnUpdate
  split <;> first | rfl | (split <;> rfl)

theorem applyReturnUpdate_status (now : Nat) (input : ReturnBookInput)
    (r : BorrowRequest) : (applyReturnUpdate now input r).status = BorrowStatus.selesai := by
  unfold applyReturnUpdate
  split <;> first | rfl | (split <;> rfl)

theorem applyReturnUpdate_return_date (now : Nat) (input : ReturnBookInput)
    (r : BorrowRequest) : (applyReturnUpdate now input r).return_date = some now := by
  unfold applyReturnUpdate
  split <;> first | rfl | (split <;> rfl)

theorem applyReturnUpdate_approved_date (now : Nat) (input : ReturnBookInput)
    (r : BorrowRequest) : (applyReturnUpdate now input r).approved_date = r.approved_date := by
  unfold applyReturnUpdate
  split <;> first | rfl | (split <;> rfl)

theorem applyReturnUpdate_due_date (now : Nat) (input : ReturnBookInput)
    (r : BorrowRequest) : (applyReturnUpdate now input r).due_date = r.due_date := by
  unfold applyReturnUpdate
  split <;> first | rfl | (split <;> rfl)

theorem applyReturnUpdate_notes_empty (now : Nat) (input : ReturnBookInput)
    (r : BorrowRequest) (h : input.notes = none ∨ input.notes = some "") :
    (applyReturnUpdate now input r).notes = r.notes := by
  unfold applyReturnUpdate
  rcases h with h | h <;> rw [h] <;> simp

theorem applyReturnUpdate_notes_replace (now : Nat) (input : ReturnBookInput)
    (r : BorrowRequest) (s : String) (hs : input.notes = some s) (hne : s ≠ "") :
    (applyReturnUpdate now input r).notes = some s := by
  unfold applyReturnUpdate
  rw [hs]
  simp [hne]

/-- C7: `cancelBorrowRequest` raises the combined not-found/ownership error
whenever no request matches id AND member together; raises NotPending when
the owned request is not menunggu; on success sets ditolak, overwrites notes
with "Cancelled by member" and returns true; it never returns false. -/
theorem cancelBorrowRequest_spec (db : DB) (now requestId memberId : Nat) :
    ((∀ r ∈ db.requests, ¬(r.id = requestId ∧ r.member_id = memberId)) →
       cancelBorrowRequest db now requestId memberId =
         .error "Borrow request not found or you do not have permission to cancel it") ∧
    (∀ cr, db.requests.find? (fun r => r.id == requestId && r.member_id == memberId) = some cr →
       cr.status ≠ BorrowStatus.menunggu →
       cancelBorrowRequest db now requestId memberId =
         .error "Only pending requests can be cancelled") ∧
    (∀ cr, db.requests.find? (fun r => r.id == requestId && r.member_id == memberId) = some cr →
       cr.status = BorrowStatus.menunggu →
       ∃ db', cancelBorrowRequest db now requestId memberId = .ok (db', true) ∧
         ∀ r' ∈ db'.requests, r'.id = requestId →
           r'.status = BorrowStatus.ditolak ∧ r'.notes = some "Cancelled by member") ∧
    (∀ db' b, cancelBorrowRequest db now requestId memberId = .ok (db', b) → b = true) := by
  refine ⟨?_, ?_, ?_, ?_⟩
  · intro hno
    have hfind : db.requests.find?
        (fun r => r.id == requestId && r.member_id == memberId) = none := by
      rw [List.find?_eq_none]
      intro r hr
      have := hno r hr
      simp only [Bool.and_eq_true, beq_iff_eq]
      intro hcontra
      exact this hcontra
    unfold cancelBorrowRequest
    rw [hfind]
  · intro cr hfind hst
    unfold cancelBorrowRequest
    rw [hfind]
    simp [hst]
  · intro cr hfind hst
    unfold cancelBorrowRequest
    rw [hfind]
    dsimp only
    rw [if_neg (by simp [hst])]
    refine ⟨_, rfl, ?_⟩
    intro r' hr' hid
    simp only [List.mem_map] at hr'
    obtain ⟨r, hrmem, hreq⟩ := hr'
    by_cases hcase : r.id = requestId
    · rw [if_pos (by simpa using hcase)] at hreq
      rw [← hreq]
      exact ⟨rfl, rfl⟩
    · rw [if_neg (by simpa using hcase)] at hreq
      rw [← hreq] at hid
      exact absurd hid hcase
  · intro db' b h
    unfold cancelBorrowRequest at h
    split at h
    · exact absurd h (by simp)
    · split at h
      · exact absurd h (by simp)
      · simp only [Except.ok.injEq, Prod.mk.injEq] at h
        exact h.2.symm

/-- Store for the C7 witness: member 2 owns pending request 1. -/
def c7db : DB :=
  { users := [mkUser 2 UserRole.member "siti" "h"]
    books := [mkBook 1 1 1 BookStatus.tersedia]
    requests := [mkReq 1 2 1 BorrowStatus.menunggu none none none]
    nextRequestId := 2 }

/-- Witness for C7: the success branch at a concrete store. -/
theorem cancelBorrowRequest_spec_witness :
    ∃ db', cancelBorrowRequest c7db 3 1 2 = .ok (db', true) ∧
      ∀ r' ∈ db'.requests, r'.id = 1 →
        r'.status = BorrowStatus.ditolak ∧ r'.notes = some "Cancelled by member" :=
  (cancelBorrowRequest_spec c7db 3 1 2).2.2.1
    (mkReq 1 2 1 BorrowStatus.menunggu none none none) (by decide) (by decide)

/-- Store for the C4 counterexample: request 1 is selesai (Completed) with
`return_date` null, as produced by `updateBorrowRequestStatus` with target
status selesai. -/
def c4db : DB :=
  { users := [mkUser 2 UserRole.member "siti" "h"]
    books := [mkBook 1 1 1 BookStatus.tersedia]
    requests := [mkReq 1 2 1 BorrowStatus.selesai (some 0) (some 14) none]
    nextRequestId := 2 }

/-- C4 counterexample: a request in Completed status for which `returnBook`
raises the InvalidState error, not the Conflict(AlreadyReturned) one, because
its `return_date` is null and the status check fires second. -/
theorem returnBook_completed_counterexample :
    (∃ r ∈ c4db.requests, r.id = 1 ∧ r.status = BorrowStatus.selesai) ∧
    returnBook c4db 9 { request_id := 1, notes := none } =
      Except.error "Only approved requests can be returned" := by
  decide

/-- C4 (amended): `returnBook` raises NotFound when the request is absent,
Conflict(AlreadyReturned) whenever `return_date` is set (in particular for a
Completed request with `return_date` set), and InvalidState(NotApproved) when
`return_date` is null and the status is not disetujui — including a Completed
request whose `return_date` was never set. -/
theorem returnBook_error_order (db : DB) (now : Nat) (input : ReturnBookInput) :
    (db.requests.find? (fun r => r.id == input.request_id) = none →
       returnBook db now input = .error "Borrow request not found") ∧
    (∀ cr, db.requests.find? (fun r => r.id == input.request_id) = some cr →
       cr.return_date.isSome →
       returnBook db now input = .error "Book has already been returned") ∧
    (∀ cr, db.requests.find? (fun r => r.id == input.request_id) = some cr →
       cr.return_date = none → cr.status ≠ BorrowStatus.disetujui →
       returnBook db now input = .error "Only approved requests can be returned") := by
  refine ⟨?_, ?_, ?_⟩
  · intro hfind
    unfold returnBook
    rw [hfind]
  · intro cr hfind hrd
    unfold returnBook
    rw [hfind]
    simp [hrd]
  · intro cr hfind hrd hst
    unfold returnBook
    rw [hfind]
    simp [hrd, hst]

/-- Store for the C4 witness: request 1 is selesai with `return_date` set,
the state `returnBook` itself produces. -/
def c4db2 : DB :=
  { users := [mkUser 2 UserRole.member "siti" "h"]
    books := [mkBook 1 1 1 BookStatus.tersedia]
    requests := [mkReq 1 2 1 BorrowStatus.selesai (some 0) (some 14) (some 10)]
    nextRequestId := 2 }

/-- Witness for C4 (amended): a Completed request with `return_date` set gets
the AlreadyReturned error. -/
theorem returnBook_error_order_witness :
    returnBook c4db2 9 { request_id := 1, notes := none } =
      Except.error "Book has already been returned" :=
  (returnBook_error_order c4db2 9 { request_id := 1, notes := none }).2.1
    (mkReq 1 2 1 BorrowStatus.selesai (some 0) (some 14) (some 10))
    (by decide) (by decide)

/-- C10: when `returnBook` succeeds, null or empty input notes leave every
stored notes field (and the returned record's notes) unchanged, while a
non-empty notes string replaces the notes of the returned request. -/
theorem returnBook_notes_frame (db : DB) (now : Nat) (input : ReturnBookInput)
    (cr : BorrowRequest) (db' : DB) (ret : BorrowRequest)
    (hfind : db.requests.find? (fun r => r.id == input.request_id) = some cr)
    (hok : returnBook db now input = .ok (db', ret)) :
    ((input.notes = none ∨ input.notes = some "") →
       ret.notes = cr.notes ∧
       db'.requests.map (fun r => r.notes) = db.requests.map (fun r => r.notes)) ∧
    (∀ s, input.notes = some s → s ≠ "" →
       ret.notes = some s ∧
       db'.requests.map (fun r => r.notes) =
         db.requests.map (fun r =>
           if r.id == input.request_id then some s else r.notes)) := by
  unfold returnBook at hok
  rw [hfind] at hok
  dsimp only at hok
  by_cases h1 : cr.return_date.isSome
  · rw [if_pos h1] at hok
    exact absurd hok (by simp)
  · rw [if_neg h1] at hok
    by_cases h2 : cr.status ≠ BorrowStatus.disetujui
    · rw [if_pos h2] at hok
      exact absurd hok (by simp)
    · rw [if_neg h2] at hok
      simp only [Except.ok.injEq, Prod.mk.injEq] at hok
      obtain ⟨hdb, hret⟩ := hok
      subst hdb
      subst hret
      constructor
      · intro hempty
        refine ⟨applyReturnUpdate_notes_empty now input cr hempty, ?_⟩
        simp only [List.map_map]
        apply List.map_congr_left
        intro r _
        simp only [Function.comp]
        by_cases hcase : r.id == input.request_id
        · rw [if_pos hcase]
          exact applyReturnUpdate_notes_empty now input r hempty
        · rw [if_neg hcase]
      · intro s hs hne
        refine ⟨applyReturnUpdate_notes_replace now input cr s hs hne, ?_⟩
        simp only [List.map_map]
        apply List.map_congr_left
        intro r _
        simp only [Function.comp]
        by_cases hcase : r.id == input.request_id
        · rw [if_pos hcase, if_pos hcase]
          exact applyReturnUpdate_notes_replace now input r s hs hne
        · rw [if_neg hcase, if_neg hcase]

/-- Approved request carrying pre-existing notes, for the C10 witness. -/
def c10req : BorrowRequest :=
  { mkReq 1 2 1 BorrowStatus.disetujui (some 0) (some 14) none with
      notes := some "old" }

/-- Store for the C10 witness. -/
def c10db : DB :=
  { users := [mkUser 2 UserRole.member "siti" "h"]
    books := [mkBook 1 1 0 BookStatus.tersedia]
    requests := [c10req]
    nextRequestId := 2 }

/-- The request after the C10 witness return (notes untouched). -/
def c10ret : BorrowRequest :=
  { c10req with status := BorrowStatus.selesai, return_date := some 9,
                updated_at := 9 }

/-- The store after the C10 witness return. -/
def c10db' : DB :=
  { c10db with
      requests := [c10ret]
      books := [{ mkBook 1 1 1 BookStatus.tersedia with updated_at := 9 }] }

/-- Witness for C10 at a concrete store: returning with null notes keeps the
prior notes. -/
theorem returnBook_notes_frame_witness :
    ((none = (none : Option String) ∨ none = some "") →
       c10ret.notes = c10req.notes ∧
       c10db'.requests.map (fun r => r.notes) = c10db.requests.map (fun r => r.notes)) ∧
    (∀ s, (none : Option String) = some s → s ≠ "" →
       c10ret.notes = some s ∧
       c10db'.requests.map (fun r => r.notes) =
         c10db.requests.map (fun r => if r.id == 1 then some s else r.notes)) :=
  returnBook_notes_frame c10db 9 { request_id := 1, notes := none }
    c10req c10db' c10ret (by decide) (by decide)

/-- C9: every user object returned by `login` or `validateSession` is the
password-stripped projection of a stored user; the `UserPublic` record has no
password field at all, so no return path exposes the stored hash. -/
theorem auth_password_stripped (hash : String → String) (db : DB)
    (username password : String) (userId : Nat) :
    (∀ pu, (login hash db username password).user = some pu →
       ∃ u, u ∈ db.users ∧ pu = stripPassword u) ∧
    (∀ pu, validateSession db userId = some pu →
       ∃ u, u ∈ db.users ∧ pu = stripPassword u) := by
  constructor
  · intro pu hpu
    unfold login at hpu
    split at hpu
    · exact absurd hpu (by simp)
    · next u hfind =>
      split at hpu
      · simp only [Option.some.injEq] at hpu
        exact ⟨u, List.mem_of_find?_eq_some hfind, hpu.symm⟩
      · exact absurd hpu (by simp)
  · intro pu hpu
    unfold validateSession at hpu
    cases hfind : db.users.find? (fun u => u.id == userId) with
    | none => rw [hfind] at hpu; exact absurd hpu (by simp)
    | some u =>
      rw [hfind] at hpu
      simp only [Option.map_some', Option.some.injEq] at hpu
      exact ⟨u, List.mem_of_find?_eq_some hfind, hpu.symm⟩

/-- Store for the C9 witness. -/
def c9db : DB :=
  { users := [mkUser 7 UserRole.admin "admin" "pw"]
    books := []
    requests := []
    nextRequestId := 1 }

/-- Witness for C9: a successful login at a concrete store returns the
stripped projection of a stored user. -/
theorem auth_password_stripped_witness :
    ∃ u, u ∈ c9db.users ∧
      stripPassword (mkUser 7 UserRole.admin "admin" "pw") = stripPassword u :=
  (auth_password_stripped (fun s => s) c9db "admin" "pw" 0).1
    (stripPassword (mkUser 7 UserRole.admin "admin" "pw")) (by decide)

/-- C2: for any existing request — whatever its current status, including
disetujui or a terminal state — `updateBorrowRequestStatus` with target
disetujui succeeds, stamps `approved_date = now` and `due_date = now + 14`,
stores `approved_by` when supplied, and decrements the referenced book's
`available_stock` by exactly 1; no transition validation exists. -/
theorem updateBorrowRequestStatus_approve_unguarded (db : DB) (now : Nat)
    (input : UpdateBorrowRequestInput) (cr : BorrowRequest)
    (hfind : db.requests.find? (fun r => r.id == input.id) = some cr)
    (happ : input.status = BorrowStatus.disetujui) :
    ∃ db' ret, updateBorrowRequestStatus db now input = .ok (db', ret) ∧
      ret.status = BorrowStatus.disetujui ∧
      ret.approved_date = some now ∧ ret.due_date = some (now + 14) ∧
      (∀ v, input.approved_by = some v → ret.approved_by = v) ∧
      db'.books = db.books.map (fun b =>
        if b.id == cr.book_id then
          { b with available_stock := b.available_stock - 1, updated_at := now }
        else b) := by
  unfold updateBorrowRequestStatus
  rw [hfind]
  dsimp only
  rw [if_pos happ]
  exact ⟨_, _, rfl,
    by rw [applyStatusUpdate_status]; exact happ,
    applyStatusUpdate_approved_date_of_approve now input cr happ,
    applyStatusUpdate_due_date_of_approve now input cr happ,
    fun v hv => applyStatusUpdate_approved_by_supplied now input cr v hv,
    rfl⟩

/-- Store for the C2 witness: request 1 is ALREADY disetujui, so the witness
exercises a re-approval. -/
def c2db : DB :=
  { users := [mkUser 2 UserRole.member "siti" "h", mkUser 9 UserRole.admin "admin" "h"]
    books := [mkBook 1 2 1 BookStatus.tersedia]
    requests := [mkReq 1 2 1 BorrowStatus.disetujui (some 0) (some 14) none]
    nextRequestId := 2 }

/-- Approval input used by the C2 witness. -/
def c2input : UpdateBorrowRequestInput :=
  { id := 1, status := BorrowStatus.disetujui, notes := none,
    approved_by := some (some 9) }

/-- Witness for C2 at a concrete store: re-approving an already-approved
request succeeds and decrements stock again. -/
theorem updateBorrowRequestStatus_approve_unguarded_witness :
    ∃ db' ret, updateBorrowRequestStatus c2db 5 c2input = .ok (db', ret) ∧
      ret.status = BorrowStatus.disetujui ∧
      ret.approved_date = some 5 ∧ ret.due_date = some (5 + 14) ∧
      (∀ v, c2input.approved_by = some v → ret.approved_by = v) ∧
      db'.books = c2db.books.map (fun b =>
        if b.id == 1 then
          { b with available_stock := b.available_stock - 1, updated_at := 5 }
        else b) :=
  updateBorrowRequestStatus_approve_unguarded c2db 5 c2input
    (mkReq 1 2 1 BorrowStatus.disetujui (some 0) (some 14) none)
    (by decide) (by decide)

theorem filter_length_pos_iff_any (l : List BorrowRequest) (p : BorrowRequest → Bool) :
    0 < (l.filter p).length ↔ l.any p = true := by
  rw [List.length_pos, List.any_eq_true]
  constructor
  · intro h
    match hfe : l.filter p with
    | [] => exact absurd hfe h
    | a :: t =>
      have ha : a ∈ l.filter p := by rw [hfe]; exact List.mem_cons_self a t
      exact ⟨a, (List.mem_filter.mp ha).1, (List.mem_filter.mp ha).2⟩
  · rintro ⟨a, ha, hpa⟩ hfe
    have hmem : a ∈ l.filter p := List.mem_filter.mpr ⟨ha, hpa⟩
    rw [hfe] at hmem
    exact absurd hmem (List.not_mem_nil a)

/-- Specification-side checker for `createBorrowRequest`, written from the
spec's ordered precondition list (book exists; `available_stock > 0` and
status Available; member exists with role Member; no existing
Pending-or-Approved request for the pair): it returns the error of the first
precondition that fails, and `none` when all preconditions hold. -/
def specCreateFirstFailure (db : DB) (input : CreateBorrowRequestInput) : Option String :=
  match db.books.find? (fun b => b.id == input.book_id) with
  | none => some "Book not found"
  | some book =>
    if book.available_stock > 0 ∧ book.status = BookStatus.tersedia then
      match db.users.find? (fun u => u.id == input.member_id && u.role == UserRole.member) with
      | none => some "Member not found"
      | some _ =>
        if db.requests.any (fun r =>
              r.member_id == input.member_id && r.book_id == input.book_id &&
              (r.status == BorrowStatus.menunggu || r.status == BorrowStatus.disetujui)) then
          some "You already have an active request for this book"
        else none
    else some "Book is not available for borrowing"

/-- C3: `createBorrowRequest` fails with error `e` exactly when the ordered
spec-side precondition check reports `e` as the first failing precondition,
and succeeds exactly when all preconditions hold. Failure returns no store,
so a failing call inserts nothing and mutates nothing: in the embedding, as
in the code, every check precedes the insert. -/
theorem createBorrowRequest_error_order (db : DB) (now : Nat)
    (input : CreateBorrowRequestInput) :
    (∀ e, createBorrowRequest db now input = .error e ↔
       specCreateFirstFailure db input = some e) ∧
    ((∃ res, createBorrowRequest db now input = .ok res) ↔
       specCreateFirstFailure db input = none) := by
  unfold createBorrowRequest specCreateFirstFailure
  cases hb : db.books.find? (fun b => b.id == input.book_id) with
  | none => simp
  | some book =>
    dsimp only
    by_cases hav : book.available_stock ≤ 0 ∨ book.status ≠ BookStatus.tersedia
    · rw [if_pos hav, if_neg (by
        rcases hav with h | h
        · exact fun hc => absurd hc.1 (not_lt.mpr h)
        · exact fun hc => h hc.2)]
      simp
    · have hpos : 0 < book.available_stock ∧ book.status = BookStatus.tersedia := by
        push_neg at hav
        exact hav
      rw [if_neg hav, if_pos hpos]
      cases hm : db.users.find?
          (fun u => u.id == input.member_id && u.role == UserRole.member) with
      | none => simp
      | some m =>
        dsimp only
        by_cases hdup : 0 < (db.requests.filter (fun r =>
            r.member_id == input.member_id && r.book_id == input.book_id &&
            (r.status == BorrowStatus.menunggu || r.status == BorrowStatus.disetujui))).length
        · have hany : (db.requests.any (fun r =>
              r.member_id == input.member_id && r.book_id == input.book_id &&
              (r.status == BorrowStatus.menunggu || r.status == BorrowStatus.disetujui))) = true :=
            (filter_length_pos_iff_any _ _).mp hdup
          rw [if_pos hdup, if_pos hany]
          simp
        · have hnany : ¬((db.requests.any (fun r =>
              r.member_id == input.member_id && r.book_id == input.book_id &&
              (r.status == BorrowStatus.menunggu || r.status == BorrowStatus.disetujui))) = true) :=
            fun h => hdup ((filter_length_pos_iff_any _ _).mpr h)
          rw [if_neg hdup, if_neg hnany]
          simp

/-! ### Operation traces over the Loan Ledger -/

/-- One Loan Ledger call, as invoked by the API layer. -/
inductive LedgerOp where
  | create (now : Nat) (input : CreateBorrowRequestInput)
  | update (now : Nat) (input : UpdateBorrowRequestInput)
  | ret (now : Nat) (input : ReturnBookInput)
  | cancel (now : Nat) (requestId memberId : Nat)
deriving DecidableEq

/-- Applying one call to the store; a thrown error leaves the store unchanged
(every handler throws before performing its writes). -/
def applyOp (db : DB) (op : LedgerOp) : DB :=
  match op with
  | .create now input =>
    match createBorrowRequest db now input with
    | .ok (db', _) => db'
    | .error _ => db
  | .update now input =>
    match updateBorrowRequestStatus db now input with
    | .ok (db', _) => db'
    | .error _ => db
  | .ret now input =>
    match returnBook db now input with
    | .ok (db', _) => db'
    | .error _ => db
  | .cancel now rid mid =>
    match cancelBorrowRequest db now rid mid with
    | .ok (db', _) => db'
    | .error _ => db

/-- Running a sequence of calls. -/
def runOps (db : DB) : List LedgerOp → DB
  | [] => db
  | op :: ops => runOps (applyOp db op) ops

/-- Number of the book's borrow requests currently in disetujui status and
not yet returned. -/
def approvedQ (bookId : Nat) (r : BorrowRequest) : Bool :=
  r.book_id == bookId && r.status == BorrowStatus.disetujui && r.return_date.isNone

def approvedNotReturned (db : DB) (bookId : Nat) : Nat :=
  (db.requests.filter (approvedQ bookId)).length

/-- The stock equation of the claim, for every book row. -/
def stockConsistent (db : DB) : Prop :=
  ∀ b ∈ db.books,
    b.available_stock = b.total_stock - (approvedNotReturned db b.id : Int)

instance stockConsistentDec (db : DB) : Decidable (stockConsistent db) :=
  inferInstanceAs (Decidable (∀ b ∈ db.books,
    b.available_stock = b.total_stock - (approvedNotReturned db b.id : Int)))

/-- The operation kinds quantified over by the stock-consistency claim:
approvals via `updateBorrowRequestStatus` and returns. -/
def isApproveOrReturn : LedgerOp → Bool
  | .update _ input => input.status == BorrowStatus.disetujui
  | .ret _ _ => true
  | _ => false

/-- Store for the C1 counterexample: one consistent book and one pending
request. -/
def c1db : DB :=
  { users := [mkUser 2 UserRole.member "siti" "h"]
    books := [mkBook 1 2 2 BookStatus.tersedia]
    requests := [mkReq 1 2 1 BorrowStatus.menunggu none none none]
    nextRequestId := 2 }

/-- The approval used (twice) by the C1 counterexample. -/
def c1op : LedgerOp :=
  .update 0 { id := 1, status := BorrowStatus.disetujui, notes := none,
              approved_by := some (some 9) }

/-- C1 counterexample: from a consistent store, approving the same request
twice (both calls being approve operations, which the code accepts) double
decrements the stock and breaks the stock equation. -/
theorem stock_consistency_counterexample :
    stockConsistent c1db ∧ (c1db.requests.map (fun r => r.id)).Nodup ∧
    (∀ op ∈ [c1op, c1op], isApproveOrReturn op = true) ∧
    ¬ stockConsistent (runOps c1db [c1op, c1op]) := by
  decide


/-- Counting bookkeeping for an update that rewrites exactly the rows whose
id matches `i`: stated as an equation so it needs no uniqueness hypothesis. -/
theorem filter_length_map_update (l : List BorrowRequest) (i : Nat)
    (g : BorrowRequest → BorrowRequest) (Q : BorrowRequest → Bool) :
    ((l.map (fun r => if r.id == i then g r else r)).filter Q).length
      + ((l.filter (fun r => r.id == i)).filter Q).length
    = (l.filter Q).length
      + (((l.filter (fun r => r.id == i)).map g).filter Q).length := by
  induction l with
  | nil => rfl
  | cons a t ih =>
    by_cases h : (a.id == i) = true
    · by_cases hQga : Q (g a) = true <;> by_cases hQa : Q a = true <;>
        simp only [List.map_cons, List.filter_cons, h, hQga, hQa, if_true,
          if_false, List.length_cons, Bool.false_eq_true, ite_true, ite_false] <;>
        omega
    · by_cases hQa : Q a = true <;>
        simp only [List.map_cons, List.filter_cons, h, hQa, if_true, if_false,
          List.length_cons, Bool.false_eq_true, ite_true, ite_false] <;>
        omega

/-- With distinct ids, the rows selected by an id-filter are exactly the one
row that `find?` returns. -/
theorem filter_id_eq_single (l : List BorrowRequest) (i : Nat)
    (cr : BorrowRequest) (hnd : (l.map (fun r => r.id)).Nodup)
    (hfind : l.find? (fun r => r.id == i) = some cr) :
    l.filter (fun r => r.id == i) = [cr] := by
  induction l with
  | nil => cases hfind
  | cons a t ih =>
    rw [List.map_cons, List.nodup_cons] at hnd
    by_cases h : (a.id == i) = true
    · rw [show (a :: t).find? (fun r => r.id == i) = some a from
        List.find?_cons_of_pos t h] at hfind
      injection hfind with hcr
      rw [← hcr]
      rw [show (a :: t).filter (fun r => r.id == i) =
            a :: t.filter (fun r => r.id == i) from
        List.filter_cons_of_pos h]
      have hnone : ∀ r ∈ t, ¬((fun r => r.id == i) r = true) := by
        intro r hr hri
        apply hnd.1
        rw [List.mem_map]
        refine ⟨r, hr, ?_⟩
        have h1 : a.id = i := by simpa using h
        have h2 : r.id = i := by simpa using hri
        rw [h2, h1]
      rw [List.filter_eq_nil.mpr hnone]
    · rw [show (a :: t).find? (fun r => r.id == i) =
            t.find? (fun r => r.id == i) from
        List.find?_cons_of_neg t h] at hfind
      rw [show (a :: t).filter (fun r => r.id == i) =
            t.filter (fun r => r.id == i) from
        List.filter_cons_of_neg (by simpa using h)]
      exact ih hnd.2 hfind

theorem length_filter_singleton (r : BorrowRequest) (Q : BorrowRequest → Bool) :
    ([r].filter Q).length = if Q r then 1 else 0 := by
  by_cases h : Q r = true <;> simp [List.filter, h]

/-- Side condition of the amended stock claim: every update in the trace is
an approval whose target request is not currently disetujui and has no return
date; returns are unrestricted; the claim's traces contain no other ops. -/
def approveStepOk (db : DB) : LedgerOp → Prop
  | .update _ input => input.status = BorrowStatus.disetujui ∧
      ∀ r ∈ db.requests, r.id = input.id →
        r.status ≠ BorrowStatus.disetujui ∧ r.return_date = none
  | .ret _ _ => True
  | .create _ _ => False
  | .cancel _ _ _ => False

/-- The side condition, applied along the whole trace. -/
def SafeApproveTrace : DB → List LedgerOp → Prop
  | _, [] => True
  | db, op :: ops => approveStepOk db op ∧ SafeApproveTrace (applyOp db op) ops

theorem requests_ids_map_update (l : List BorrowRequest) (i : Nat)
    (g : BorrowRequest → BorrowRequest) (hg : ∀ r, (g r).id = r.id) :
    (l.map (fun r => if r.id == i then g r else r)).map (fun r => r.id)
      = l.map (fun r => r.id) := by
  rw [List.map_map]
  apply List.map_congr_left
  intro r _
  simp only [Function.comp]
  by_cases h : (r.id == i) = true
  · rw [if_pos h, hg]
  · rw [if_neg h]

theorem applyOp_ids_update (db : DB) (now : Nat) (input : UpdateBorrowRequestInput) :
    (applyOp db (.update now input)).requests.map (fun r => r.id)
      = db.requests.map (fun r => r.id) := by
  cases hfind : db.requests.find? (fun r => r.id == input.id) with
  | none =>
    have h : applyOp db (.update now input) = db := by
      unfold applyOp updateBorrowRequestStatus
      dsimp only
      rw [hfind]
    rw [h]
  | some cr =>
    have h : (applyOp db (.update now input)).requests =
        db.requests.map (fun r =>
          if r.id == input.id then applyStatusUpdate now input r else r) := by
      unfold applyOp updateBorrowRequestStatus
      dsimp only
      rw [hfind]
    rw [h]
    exact requests_ids_map_update _ _ _ (fun r => applyStatusUpdate_id now input r)

theorem applyOp_ids_ret (db : DB) (now : Nat) (input : ReturnBookInput) :
    (applyOp db (.ret now input)).requests.map (fun r => r.id)
      = db.requests.map (fun r => r.id) := by
  cases hfind : db.requests.find? (fun r => r.id == input.request_id) with
  | none =>
    have h : applyOp db (.ret now input) = db := by
      unfold applyOp returnBook
      dsimp only
      rw [hfind]
    rw [h]
  | some cr =>
    by_cases h1 : cr.return_date.isSome = true
    · have h : applyOp db (.ret now input) = db := by
        unfold applyOp returnBook
        dsimp only
        rw [hfind]
        dsimp only
        rw [if_pos h1]
      rw [h]
    · by_cases h2 : cr.status ≠ BorrowStatus.disetujui
      · have h : applyOp db (.ret now input) = db := by
          unfold applyOp returnBook
          dsimp only
          rw [hfind]
          dsimp only
          rw [if_neg h1, if_pos h2]
        rw [h]
      · have h : (applyOp db (.ret now input)).requests =
            db.requests.map (fun r =>
              if r.id == input.request_id then applyReturnUpdate now input r else r) := by
          unfold applyOp returnBook
          dsimp only
          rw [hfind]
          dsimp only
          rw [if_neg h1, if_neg h2]
        rw [h]
        exact requests_ids_map_update _ _ _ (fun r => applyReturnUpdate_id now input r)

theorem approve_step_preserves_stock (db : DB) (op : LedgerOp)
    (hnd : (db.requests.map (fun r => r.id)).Nodup)
    (hok : approveStepOk db op)
    (hsc : stockConsistent db) :
    stockConsistent (applyOp db op) := by
  cases op with
  | create now input =>
    simp only [approveStepOk] at hok
  | cancel now rid mid =>
    simp only [approveStepOk] at hok
  | update now input =>
    simp only [approveStepOk] at hok
    obtain ⟨hst, hsafe⟩ := hok
    cases hfind : db.requests.find? (fun r => r.id == input.id) with
    | none =>
      have h : applyOp db (.update now input) = db := by
        unfold applyOp updateBorrowRequestStatus
        dsimp only
        rw [hfind]
      rw [h]
      exact hsc
    | some cr =>
      have hcrmem : cr ∈ db.requests := List.mem_of_find?_eq_some hfind
      have hcrid : cr.id = input.id := by
        have h := List.find?_some hfind
        simpa using h
      obtain ⟨hcrst, hcrrd⟩ := hsafe cr hcrmem hcrid
      have happ : applyOp db (.update now input) =
          { db with
            books := db.books.map (fun b =>
              if b.id == cr.book_id then
                { b with available_stock := b.available_stock - 1, updated_at := now }
              else b)
            requests := db.requests.map (fun r =>
              if r.id == input.id then applyStatusUpdate now input r else r) } := by
        unfold applyOp updateBorrowRequestStatus
        dsimp only
        rw [hfind]
        dsimp only
        rw [if_pos hst]
      rw [happ]
      intro b' hb'
      simp only [List.mem_map] at hb'
      obtain ⟨b, hb, hbeq⟩ := hb'
      have key := filter_length_map_update db.requests input.id
        (applyStatusUpdate now input) (approvedQ b'.id)
      rw [filter_id_eq_single db.requests input.id cr hnd hfind] at key
      simp only [List.map_cons, List.map_nil] at key
      rw [length_filter_singleton, length_filter_singleton] at key
      have hQcr : approvedQ b'.id cr = false := by
        unfold approvedQ
        have hcs : (cr.status == BorrowStatus.disetujui) = false := by
          simpa using hcrst
        simp [hcs]
      have hQg : approvedQ b'.id (applyStatusUpdate now input cr)
          = (cr.book_id == b'.id) := by
        unfold approvedQ
        rw [applyStatusUpdate_book_id, applyStatusUpdate_status,
            applyStatusUpdate_return_date, hst, hcrrd]
        simp
      rw [hQcr, hQg] at key
      simp only [Bool.false_eq_true, if_false] at key
      have hgoal : approvedNotReturned
          { db with
            books := db.books.map (fun b =>
              if b.id == cr.book_id then
                { b with available_stock := b.available_stock - 1, updated_at := now }
              else b)
            requests := db.requests.map (fun r =>
              if r.id == input.id then applyStatusUpdate now input r else r) } b'.id
          = ((db.requests.map (fun r =>
              if r.id == input.id then applyStatusUpdate now input r else r)).filter
              (approvedQ b'.id)).length := rfl
      rw [hgoal]
      have hs := hsc b hb
      simp only [approvedNotReturned] at hs
      by_cases hmatch : (b.id == cr.book_id) = true
      · rw [if_pos hmatch] at hbeq
        have hb'id : b'.id = b.id := by rw [← hbeq]
        have hb'av : b'.available_stock = b.available_stock - 1 := by rw [← hbeq]
        have hb'tot : b'.total_stock = b.total_stock := by rw [← hbeq]
        have hcb : (cr.book_id == b'.id) = true := by
          rw [hb'id]
          have hid : b.id = cr.book_id := by simpa using hmatch
          simp [hid]
        rw [hcb] at key
        simp only [if_true] at key
        rw [hb'id] at key
        rw [hb'av, hb'tot, hb'id]
        omega
      · rw [if_neg hmatch] at hbeq
        have hcb : (cr.book_id == b'.id) = false := by
          rw [← hbeq]
          rw [beq_eq_false_iff_ne]
          intro hc
          exact hmatch (by simp [hc])
        rw [hcb] at key
        simp only [Bool.false_eq_true, if_false] at key
        rw [← hbeq] at key
        rw [← hbeq]
        omega
  | ret now input =>
    cases hfind : db.requests.find? (fun r => r.id == input.request_id) with
    | none =>
      have h : applyOp db (.ret now input) = db := by
        unfold applyOp returnBook
        dsimp only
        rw [hfind]
      rw [h]
      exact hsc
    | some cr =>
      by_cases h1 : cr.return_date.isSome = true
      · have h : applyOp db (.ret now input) = db := by
          unfold applyOp returnBook
          dsimp only
          rw [hfind]
          dsimp only
          rw [if_pos h1]
        rw [h]
        exact hsc
      · by_cases h2 : cr.status ≠ BorrowStatus.disetujui
        · have h : applyOp db (.ret now input) = db := by
            unfold applyOp returnBook
            dsimp only
            rw [hfind]
            dsimp only
            rw [if_neg h1, if_pos h2]
          rw [h]
          exact hsc
        · have hst : cr.status = BorrowStatus.disetujui := not_ne_iff.mp h2
          have hret : cr.return_date = none := by
            cases hr : cr.return_date with
            | none => rfl
            | some d => rw [hr] at h1; simp at h1
          have happ : applyOp db (.ret now input) =
              { db with
                requests := db.requests.map (fun r =>
                  if r.id == input.request_id then applyReturnUpdate now input r else r)
                books := db.books.map (fun b =>
                  if b.id == cr.book_id then
                    { b with available_stock := b.available_stock + 1, updated_at := now }
                  else b) } := by
            unfold applyOp returnBook
            dsimp only
            rw [hfind]
            dsimp only
            rw [if_neg h1, if_neg h2]
          rw [happ]
          intro b' hb'
          simp only [List.mem_map] at hb'
          obtain ⟨b, hb, hbeq⟩ := hb'
          have key := filter_length_map_update db.requests input.request_id
            (applyReturnUpdate now input) (approvedQ b'.id)
          rw [filter_id_eq_single db.requests input.request_id cr hnd hfind] at key
          simp only [List.map_cons, List.map_nil] at key
          rw [length_filter_singleton, length_filter_singleton] at key
          have hQcr : approvedQ b'.id cr = (cr.book_id == b'.id) := by
            unfold approvedQ
            rw [hst, hret]
            simp
          have hQg : approvedQ b'.id (applyReturnUpdate now input cr) = false := by
            unfold approvedQ
            rw [applyReturnUpdate_status, applyReturnUpdate_return_date]
            simp
          rw [hQcr, hQg] at key
          simp only [Bool.false_eq_true, if_false] at key
          have hgoal : approvedNotReturned
              { db with
                requests := db.requests.map (fun r =>
                  if r.id == input.request_id then applyReturnUpdate now input r else r)
                books := db.books.map (fun b =>
                  if b.id == cr.book_id then
                    { b with available_stock := b.available_stock + 1, updated_at := now }
                  else b) } b'.id
              = ((db.requests.map (fun r =>
                  if r.id == input.request_id then applyReturnUpdate now input r else r)).filter
                  (approvedQ b'.id)).length := rfl
          rw [hgoal]
          have hs := hsc b hb
          simp only [approvedNotReturned] at hs
          by_cases hmatch : (b.id == cr.book_id) = true
          · rw [if_pos hmatch] at hbeq
            have hb'id : b'.id = b.id := by rw [← hbeq]
            have hb'av : b'.available_stock = b.available_stock + 1 := by rw [← hbeq]
            have hb'tot : b'.total_stock = b.total_stock := by rw [← hbeq]
            have hcb : (cr.book_id == b'.id) = true := by
              rw [hb'id]
              have hid : b.id = cr.book_id := by simpa using hmatch
              simp [hid]
            rw [hcb] at key
            simp only [if_true] at key
            rw [hb'id] at key
            rw [hb'av, hb'tot, hb'id]
            omega
          · rw [if_neg hmatch] at hbeq
            have hcb : (cr.book_id == b'.id) = false := by
              rw [← hbeq]
              rw [beq_eq_false_iff_ne]
              intro hc
              exact hmatch (by simp [hc])
            rw [hcb] at key
            simp only [Bool.false_eq_true, if_false] at key
            rw [← hbeq] at key
            rw [← hbeq]
            omega

/-- C1 (amended): starting from a store satisfying the stock equation with
distinct request ids, any sequence of approve/return operations preserves
`available_stock = total_stock - count(disetujui and not returned)` for every
book, provided each approval targets a request that is not currently
disetujui and has no return date set — the restriction the counterexample
(double approval) forces. -/
theorem stock_consistency_amended (db : DB) (ops : List LedgerOp)
    (hnd : (db.requests.map (fun r => r.id)).Nodup)
    (hsc : stockConsistent db)
    (hsafe : SafeApproveTrace db ops) :
    stockConsistent (runOps db ops) := by
  induction ops generalizing db with
  | nil => exact hsc
  | cons op ops ih =>
    simp only [SafeApproveTrace] at hsafe
    obtain ⟨hok, hrest⟩ := hsafe
    have hnd' : ((applyOp db op).requests.map (fun r => r.id)).Nodup := by
      cases op with
      | update now input => rw [applyOp_ids_update]; exact hnd
      | ret now input => rw [applyOp_ids_ret]; exact hnd
      | create now input => simp only [approveStepOk] at hok
      | cancel now rid mid => simp only [approveStepOk] at hok
    exact ih (applyOp db op) hnd' (approve_step_preserves_stock db op hnd hok hsc) hrest

/-- The return used by the C1 amended witness. -/
def c1ret : LedgerOp := .ret 3 { request_id := 1, notes := none }

/-- Witness for the amended C1: approving the pending request once and then
returning it keeps the store consistent. -/
theorem stock_consistency_amended_witness :
    stockConsistent (runOps c1db [c1op, c1ret]) :=
  stock_consistency_amended c1db [c1op, c1ret] (by decide) (by decide)
    ⟨⟨rfl, by decide⟩, trivial, trivial⟩

/-! ### Date-field coherence (C5) -/

/-- Per-request date coherence under the legal state machine: Pending and
Rejected rows carry no dates, Approved rows carry approval dates and no
return date, Completed rows carry all three. -/
def requestDatesOk (r : BorrowRequest) : Prop :=
  (r.status = BorrowStatus.menunggu →
     r.approved_date = none ∧ r.due_date = none ∧ r.return_date = none) ∧
  (r.status = BorrowStatus.ditolak →
     r.approved_date = none ∧ r.due_date = none ∧ r.return_date = none) ∧
  (r.status = BorrowStatus.disetujui →
     r.approved_date.isSome ∧ r.due_date.isSome ∧ r.return_date = none) ∧
  (r.status = BorrowStatus.selesai →
     r.approved_date.isSome ∧ r.due_date.isSome ∧ r.return_date.isSome)

/-- The date iff-conditions as claimed: approval dates are set iff the
request is (disetujui) or was (selesai) approved, and the return date is set
iff the request is Completed. -/
def datesMatchClaim (db : DB) : Prop :=
  ∀ r ∈ db.requests,
    (r.approved_date.isSome ↔
      (r.status = BorrowStatus.disetujui ∨ r.status = BorrowStatus.selesai)) ∧
    (r.due_date.isSome ↔
      (r.status = BorrowStatus.disetujui ∨ r.status = BorrowStatus.selesai)) ∧
    (r.return_date.isSome ↔ r.status = BorrowStatus.selesai)

instance datesMatchClaimDec (db : DB) : Decidable (datesMatchClaim db) :=
  inferInstanceAs (Decidable (∀ r ∈ db.requests,
    (r.approved_date.isSome ↔
      (r.status = BorrowStatus.disetujui ∨ r.status = BorrowStatus.selesai)) ∧
    (r.due_date.isSome ↔
      (r.status = BorrowStatus.disetujui ∨ r.status = BorrowStatus.selesai)) ∧
    (r.return_date.isSome ↔ r.status = BorrowStatus.selesai)))

theorem requestDatesOk_implies_claim (r : BorrowRequest) (h : requestDatesOk r) :
    (r.approved_date.isSome ↔
      (r.status = BorrowStatus.disetujui ∨ r.status = BorrowStatus.selesai)) ∧
    (r.due_date.isSome ↔
      (r.status = BorrowStatus.disetujui ∨ r.status = BorrowStatus.selesai)) ∧
    (r.return_date.isSome ↔ r.status = BorrowStatus.selesai) := by
  obtain ⟨h1, h2, h3, h4⟩ := h
  cases hst : r.status with
  | menunggu =>
    obtain ⟨ha, hd, hr⟩ := h1 hst
    simp [hst, ha, hd, hr]
  | ditolak =>
    obtain ⟨ha, hd, hr⟩ := h2 hst
    simp [hst, ha, hd, hr]
  | disetujui =>
    obtain ⟨ha, hd, hr⟩ := h3 hst
    simp [hst, ha, hd, hr]
  | selesai =>
    obtain ⟨ha, hd, hr⟩ := h4 hst
    simp [hst, ha, hd, hr]

/-- The legal-state-machine restriction of the amended C5 claim: status
updates only approve or reject, and only requests currently Pending; create,
return and cancel (which guard themselves) are unrestricted. -/
def legalOp (db : DB) : LedgerOp → Prop
  | .update _ input =>
      (input.status = BorrowStatus.disetujui ∨ input.status = BorrowStatus.ditolak) ∧
      ∀ r ∈ db.requests, r.id = input.id → r.status = BorrowStatus.menunggu
  | _ => True

/-- The legality condition, applied along the whole trace. -/
def LegalTrace : DB → List LedgerOp → Prop
  | _, [] => True
  | db, op :: ops => legalOp db op ∧ LegalTrace (applyOp db op) ops

/-- Inductive invariant of the Loan Ledger under legal traces. -/
def reqInvariant (db : DB) : Prop :=
  (∀ r ∈ db.requests, requestDatesOk r ∧ r.id < db.nextRequestId) ∧
  (db.requests.map (fun r => r.id)).Nodup

theorem eq_of_mem_id_nodup (l : List BorrowRequest) (i : Nat)
    (cr r : BorrowRequest) (hnd : (l.map (fun r => r.id)).Nodup)
    (hfind : l.find? (fun r => r.id == i) = some cr)
    (hr : r ∈ l) (hrid : (r.id == i) = true) : r = cr := by
  have h := filter_id_eq_single l i cr hnd hfind
  have hmem : r ∈ l.filter (fun r => r.id == i) := List.mem_filter.mpr ⟨hr, hrid⟩
  rw [h] at hmem
  exact List.mem_singleton.mp hmem

theorem applyOp_create_cases (db : DB) (now : Nat) (input : CreateBorrowRequestInput) :
    applyOp db (.create now input) = db ∨
    applyOp db (.create now input) =
      { db with
        requests := db.requests ++
          [{ id := db.nextRequestId
             member_id := input.member_id
             book_id := input.book_id
             request_date := now
             approved_date := none
             due_date := none
             return_date := none
             status := BorrowStatus.menunggu
             notes := input.notes
             approved_by := none
             created_at := now
             updated_at := now }]
        nextRequestId := db.nextRequestId + 1 } := by
  unfold applyOp createBorrowRequest
  dsimp only
  cases hb : db.books.find? (fun b => b.id == input.book_id) with
  | none => exact Or.inl rfl
  | some book =>
    dsimp only
    by_cases hav : book.available_stock ≤ 0 ∨ book.status ≠ BookStatus.tersedia
    · rw [if_pos hav]
      exact Or.inl rfl
    · rw [if_neg hav]
      cases hm : db.users.find?
          (fun u => u.id == input.member_id && u.role == UserRole.member) with
      | none => exact Or.inl rfl
      | some m =>
        dsimp only
        by_cases hdup : 0 < (db.requests.filter (fun r =>
            r.member_id == input.member_id && r.book_id == input.book_id &&
            (r.status == BorrowStatus.menunggu || r.status == BorrowStatus.disetujui))).length
        · rw [if_pos hdup]
          exact Or.inl rfl
        · rw [if_neg hdup]
          exact Or.inr rfl

theorem applyOp_update_cases (db : DB) (now : Nat) (input : UpdateBorrowRequestInput) :
    applyOp db (.update now input) = db ∨
    ((applyOp db (.update now input)).requests =
        db.requests.map (fun r =>
          if r.id == input.id then applyStatusUpdate now input r else r) ∧
     (applyOp db (.update now input)).nextRequestId = db.nextRequestId) := by
  cases hfind : db.requests.find? (fun r => r.id == input.id) with
  | none =>
    refine Or.inl ?_
    unfold applyOp updateBorrowRequestStatus
    dsimp only
    rw [hfind]
  | some cr =>
    refine Or.inr ⟨?_, ?_⟩ <;>
      (unfold applyOp updateBorrowRequestStatus; dsimp only; rw [hfind])

theorem applyOp_ret_cases (db : DB) (now : Nat) (input : ReturnBookInput) :
    applyOp db (.ret now input) = db ∨
    ∃ cr, db.requests.find? (fun r => r.id == input.request_id) = some cr ∧
      cr.status = BorrowStatus.disetujui ∧ cr.return_date = none ∧
      (applyOp db (.ret now input)).requests =
        db.requests.map (fun r =>
          if r.id == input.request_id then applyReturnUpdate now input r else r) ∧
      (applyOp db (.ret now input)).nextRequestId = db.nextRequestId := by
  cases hfind : db.requests.find? (fun r => r.id == input.request_id) with
  | none =>
    refine Or.inl ?_
    unfold applyOp returnBook
    dsimp only
    rw [hfind]
  | some cr =>
    by_cases h1 : cr.return_date.isSome = true
    · refine Or.inl ?_
      unfold applyOp returnBook
      dsimp only
      rw [hfind]
      dsimp only
      rw [if_pos h1]
    · by_cases h2 : cr.status ≠ BorrowStatus.disetujui
      · refine Or.inl ?_
        unfold applyOp returnBook
        dsimp only
        rw [hfind]
        dsimp only
        rw [if_neg h1, if_pos h2]
      · refine Or.inr ⟨cr, rfl, not_ne_iff.mp h2, ?_, ?_, ?_⟩
        · cases hr : cr.return_date with
          | none => rfl
          | some d => rw [hr] at h1; simp at h1
        · unfold applyOp returnBook
          dsimp only
          rw [hfind]
          dsimp only
          rw [if_neg h1, if_neg h2]
        · unfold applyOp returnBook
          dsimp only
          rw [hfind]
          dsimp only
          rw [if_neg h1, if_neg h2]

theorem applyOp_cancel_cases (db : DB) (now rid mid : Nat) :
    applyOp db (.cancel now rid mid) = db ∨
    ∃ cr, db.requests.find? (fun r => r.id == rid && r.member_id == mid) = some cr ∧
      cr.status = BorrowStatus.menunggu ∧
      (applyOp db (.cancel now rid mid)).requests =
        db.requests.map (fun r =>
          if r.id == rid then
            { r with status := BorrowStatus.ditolak, updated_at := now,
                     notes := some "Cancelled by member" }
          else r) ∧
      (applyOp db (.cancel now rid mid)).nextRequestId = db.nextRequestId := by
  cases hfind : db.requests.find? (fun r => r.id == rid && r.member_id == mid) with
  | none =>
    refine Or.inl ?_
    unfold applyOp cancelBorrowRequest
    dsimp only
    rw [hfind]
  | some cr =>
    by_cases hst : cr.status ≠ BorrowStatus.menunggu
    · refine Or.inl ?_
      unfold applyOp cancelBorrowRequest
      dsimp only
      rw [hfind]
      dsimp only
      rw [if_pos hst]
    · refine Or.inr ⟨cr, rfl, not_ne_iff.mp hst, ?_, ?_⟩ <;>
        (unfold applyOp cancelBorrowRequest; dsimp only; rw [hfind]; dsimp only;
         rw [if_neg hst])

theorem requestDatesOk_applyStatusUpdate_approve (now : Nat)
    (input : UpdateBorrowRequestInput) (r : BorrowRequest)
    (hs : input.status = BorrowStatus.disetujui) (hrd : r.return_date = none) :
    requestDatesOk (applyStatusUpdate now input r) := by
  refine ⟨fun hx => ?_, fun hx => ?_, fun _ => ?_, fun hx => ?_⟩
  · rw [applyStatusUpdate_status, hs] at hx; simp at hx
  · rw [applyStatusUpdate_status, hs] at hx; simp at hx
  · exact ⟨by rw [applyStatusUpdate_approved_date_of_approve now input r hs]; rfl,
           by rw [applyStatusUpdate_due_date_of_approve now input r hs]; rfl,
           by rw [applyStatusUpdate_return_date]; exact hrd⟩
  · rw [applyStatusUpdate_status, hs] at hx; simp at hx

theorem requestDatesOk_applyStatusUpdate_reject (now : Nat)
    (input : UpdateBorrowRequestInput) (r : BorrowRequest)
    (hs : input.status = BorrowStatus.ditolak)
    (ha : r.approved_date = none) (hd : r.due_date = none)
    (hr : r.return_date = none) :
    requestDatesOk (applyStatusUpdate now input r) := by
  have hne : input.status ≠ BorrowStatus.disetujui := by rw [hs]; simp
  refine ⟨fun hx => ?_, fun _ => ?_, fun hx => ?_, fun hx => ?_⟩
  · rw [applyStatusUpdate_status, hs] at hx; simp at hx
  · exact ⟨by rw [applyStatusUpdate_approved_date_of_other now input r hne]; exact ha,
           by rw [applyStatusUpdate_due_date_of_other now input r hne]; exact hd,
           by rw [applyStatusUpdate_return_date]; exact hr⟩
  · rw [applyStatusUpdate_status, hs] at hx; simp at hx
  · rw [applyStatusUpdate_status, hs] at hx; simp at hx

theorem requestDatesOk_applyReturnUpdate (now : Nat) (input : ReturnBookInput)
    (r : BorrowRequest) (hst : r.status = BorrowStatus.disetujui)
    (hok : requestDatesOk r) :
    requestDatesOk (applyReturnUpdate now input r) := by
  obtain ⟨ha, hd, _⟩ := hok.2.2.1 hst
  refine ⟨fun hx => ?_, fun hx => ?_, fun hx => ?_, fun _ => ?_⟩
  · rw [applyReturnUpdate_status] at hx; simp at hx
  · rw [applyReturnUpdate_status] at hx; simp at hx
  · rw [applyReturnUpdate_status] at hx; simp at hx
  · exact ⟨by rw [applyReturnUpdate_approved_date]; exact ha,
           by rw [applyReturnUpdate_due_date]; exact hd,
           by rw [applyReturnUpdate_return_date]; rfl⟩

theorem requestDatesOk_cancelUpdate (now : Nat) (r : BorrowRequest)
    (hst : r.status = BorrowStatus.menunggu) (hok : requestDatesOk r) :
    requestDatesOk { r with status := BorrowStatus.ditolak, updated_at := now,
                            notes := some "Cancelled by member" } := by
  obtain ⟨ha, hd, hr⟩ := hok.1 hst
  exact ⟨fun hx => by simp at hx, fun _ => ⟨ha, hd, hr⟩,
         fun hx => by simp at hx, fun hx => by simp at hx⟩

theorem eq_of_id_eq_nodup (l : List BorrowRequest) (cr r : BorrowRequest)
    (hnd : (l.map (fun r => r.id)).Nodup) (hcr : cr ∈ l) (hr : r ∈ l)
    (heq : r.id = cr.id) : r = cr :=
  List.inj_on_of_nodup_map hnd hr hcr heq

theorem legal_step_preserves_inv (db : DB) (op : LedgerOp)
    (hinv : reqInvariant db) (hlegal : legalOp db op) :
    reqInvariant (applyOp db op) := by
  obtain ⟨hdates, hnd⟩ := hinv
  cases op with
  | create now input =>
    rcases applyOp_create_cases db now input with h | h
    · rw [h]; exact ⟨hdates, hnd⟩
    · rw [h]
      constructor
      · intro r hr
        simp only [List.mem_append, List.mem_singleton] at hr
        rcases hr with hr | hr
        · obtain ⟨hd, hid⟩ := hdates r hr
          exact ⟨hd, Nat.lt_succ_of_lt hid⟩
        · subst hr
          refine ⟨by simp [requestDatesOk], Nat.lt_succ_self _⟩
      · rw [List.map_append, List.nodup_append]
        refine ⟨hnd, List.nodup_singleton _, ?_⟩
        intro a ha hb
        simp only [List.map_cons, List.map_nil, List.mem_singleton] at hb
        rw [List.mem_map] at ha
        obtain ⟨r, hr, hrid⟩ := ha
        obtain ⟨_, hlt⟩ := hdates r hr
        rw [hb] at hrid
        omega
  | update now input =>
    simp only [legalOp] at hlegal
    obtain ⟨hstat2, hpend⟩ := hlegal
    rcases applyOp_update_cases db now input with h | ⟨hreq, hnext⟩
    · rw [h]; exact ⟨hdates, hnd⟩
    · constructor
      · intro r' hr'
        rw [hreq] at hr'
        rw [List.mem_map] at hr'
        obtain ⟨r, hrmem, hrfl⟩ := hr'
        obtain ⟨hd, hlt⟩ := hdates r hrmem
        rw [hnext]
        by_cases hc : (r.id == input.id) = true
        · rw [if_pos hc] at hrfl
          have hrid : r.id = input.id := by simpa using hc
          have hpd : r.status = BorrowStatus.menunggu := hpend r hrmem hrid
          obtain ⟨ha, hdd, hrd⟩ := hd.1 hpd
          constructor
          · rw [← hrfl]
            rcases hstat2 with hs | hs
            · exact requestDatesOk_applyStatusUpdate_approve now input r hs hrd
            · exact requestDatesOk_applyStatusUpdate_reject now input r hs ha hdd hrd
          · rw [← hrfl, applyStatusUpdate_id]
            exact hlt
        · rw [if_neg hc] at hrfl
          rw [← hrfl]
          exact ⟨hd, hlt⟩
      · rw [hreq]
        rw [requests_ids_map_update _ _ _ (fun r => applyStatusUpdate_id now input r)]
        exact hnd
  | ret now input =>
    rcases applyOp_ret_cases db now input with h | ⟨cr, hfind, hst, hrd, hreq, hnext⟩
    · rw [h]; exact ⟨hdates, hnd⟩
    · have hcrmem : cr ∈ db.requests := List.mem_of_find?_eq_some hfind
      have hcrid : cr.id = input.request_id := by
        have h := List.find?_some hfind
        simpa using h
      constructor
      · intro r' hr'
        rw [hreq] at hr'
        rw [List.mem_map] at hr'
        obtain ⟨r, hrmem, hrfl⟩ := hr'
        obtain ⟨hd, hlt⟩ := hdates r hrmem
        rw [hnext]
        by_cases hc : (r.id == input.request_id) = true
        · rw [if_pos hc] at hrfl
          have hreqr : r = cr := eq_of_id_eq_nodup db.requests cr r hnd hcrmem hrmem
            (by rw [hcrid]; simpa using hc)
          constructor
          · rw [← hrfl]
            exact requestDatesOk_applyReturnUpdate now input r (hreqr ▸ hst) hd
          · rw [← hrfl, applyReturnUpdate_id]
            exact hlt
        · rw [if_neg hc] at hrfl
          rw [← hrfl]
          exact ⟨hd, hlt⟩
      · rw [hreq]
        rw [requests_ids_map_update _ _ _ (fun r => applyReturnUpdate_id now input r)]
        exact hnd
  | cancel now rid mid =>
    rcases applyOp_cancel_cases db now rid mid with h | ⟨cr, hfind, hst, hreq, hnext⟩
    · rw [h]; exact ⟨hdates, hnd⟩
    · have hcrmem : cr ∈ db.requests := List.mem_of_find?_eq_some hfind
      have hcrid : cr.id = rid := by
        have h := List.find?_some hfind
        simp only [Bool.and_eq_true, beq_iff_eq] at h
        exact h.1
      constructor
      · intro r' hr'
        rw [hreq] at hr'
        rw [List.mem_map] at hr'
        obtain ⟨r, hrmem, hrfl⟩ := hr'
        obtain ⟨hd, hlt⟩ := hdates r hrmem
        rw [hnext]
        by_cases hc : (r.id == rid) = true
        · rw [if_pos hc] at hrfl
          have hreqr : r = cr := eq_of_id_eq_nodup db.requests cr r hnd hcrmem hrmem
            (by rw [hcrid]; simpa using hc)
          constructor
          · rw [← hrfl]
            exact requestDatesOk_cancelUpdate now r (hreqr ▸ hst) hd
          · rw [← hrfl]
            exact hlt
        · rw [if_neg hc] at hrfl
          rw [← hrfl]
          exact ⟨hd, hlt⟩
      · rw [hreq]
        rw [requests_ids_map_update _ _
          (fun r => { r with status := BorrowStatus.ditolak, updated_at := now,
                             notes := some "Cancelled by member" }) (fun r => rfl)]
        exact hnd

/-- C5 (amended): in every state reachable from an empty request table via
createBorrowRequest, returnBook, cancelBorrowRequest, and
updateBorrowRequestStatus restricted to the legal state-machine transitions
(approve or reject applied to Pending requests), `approved_date` and
`due_date` are set iff the request is Approved or Completed (is or was
Approved), and `return_date` is set iff the request is Completed. -/
theorem request_dates_amended (db : DB) (ops : List LedgerOp)
    (h0 : db.requests = []) (hlegal : LegalTrace db ops) :
    datesMatchClaim (runOps db ops) := by
  have hinv0 : reqInvariant db := by
    constructor
    · rw [h0]
      intro r hr
      exact absurd hr (List.not_mem_nil r)
    · rw [h0]
      exact List.nodup_nil
  suffices h : reqInvariant (runOps db ops) by
    intro r hr
    exact requestDatesOk_implies_claim r ((h.1 r hr).1)
  clear h0
  induction ops generalizing db with
  | nil => exact hinv0
  | cons op ops ih =>
    simp only [LegalTrace] at hlegal
    obtain ⟨hop, hrest⟩ := hlegal
    exact ih (applyOp db op) hrest (legal_step_preserves_inv db op hinv0 hop)

/-- The create used by the C5 counterexample and witness. -/
def c5create : LedgerOp :=
  .create 0 { member_id := 2, book_id := 1, notes := none }

/-- Direct status overwrite to selesai, a Loan Ledger call the schema
accepts. -/
def c5complete : LedgerOp :=
  .update 1 { id := 1, status := BorrowStatus.selesai, notes := none,
              approved_by := none }

/-- C5 counterexample: from an empty request table, create a request and set
its status to selesai via updateBorrowRequestStatus — a reachable state with
a Completed request whose return_date is null, refuting "return_date is set
iff the request is Completed". -/
theorem request_dates_counterexample :
    c6db.requests = [] ∧
    (∃ r ∈ (runOps c6db [c5create, c5complete]).requests,
      r.status = BorrowStatus.selesai ∧ r.return_date = none) ∧
    ¬ datesMatchClaim (runOps c6db [c5create, c5complete]) := by
  decide

/-- The legal approval used by the C5 witness. -/
def c5approve : LedgerOp :=
  .update 2 { id := 1, status := BorrowStatus.disetujui, notes := none,
              approved_by := some (some 9) }

/-- The return used by the C5 witness. -/
def c5return : LedgerOp := .ret 3 { request_id := 1, notes := none }

/-- Witness for the amended C5 on the legal trace create-approve-return. -/
theorem request_dates_amended_witness :
    datesMatchClaim (runOps c6db [c5create, c5approve, c5return]) :=
  request_dates_amended c6db [c5create, c5approve, c5return] rfl
    ⟨trivial, ⟨Or.inl rfl, by decide⟩, trivial, trivial⟩
